import Mathlib

/-!
Shallow embedding of the `event_drop` processor (the `Drop` matcher set, its
`Init` compilation, the per-batch `Apply` scan, and the `shift` compaction
helper) from `src/cmd/capabilities.go`.

Go maps (`e.Values`, `e.Tags`) are modelled as association lists. Go's map
iteration order is unspecified, but each key/value pair contributes to the
scan independently (the appended value is always the fixed event index `i`),
so the accumulated drop-index list is the same for every iteration order once
grouped per event; the model fixes the list order. Go `int` drop indices are
modelled as `Nat`: the scan only ever appends the nonnegative loop index `i`.
-/

/-- Scalar value stored in an event's `Values` map. Modelled from the spec:
`formatters.EventMsg` (outside `src/`) carries dynamically typed values; the
spec's data model says a value is a string, number, or boolean at runtime.
Only the string variant can match value patterns (`v.(string)` in the
source). -/
inductive EValue where
  | str : String → EValue
  | num : Int → EValue
  | boolVal : Bool → EValue
  deriving DecidableEq

/-- Modelled from the spec: an event (`formatters.EventMsg`, outside `src/`)
as read by `Drop.Apply`: a tags mapping (string keys to string values) and a
values mapping (string keys to dynamically typed scalars). -/
structure EventMsg where
  Tags : List (String × String)
  Values : List (String × EValue)
  deriving DecidableEq

/-- Executable model of `strings.TrimSpace`: drop leading and trailing
whitespace characters. (Lean's `String.trim` is extensionally the same but
its substring machinery does not reduce in the kernel, so the list-based
form is used.) -/
def trimSpace (s : String) : String :=
  String.mk (((s.data.dropWhile Char.isWhitespace).reverse.dropWhile Char.isWhitespace).reverse)

/-- The compiled matcher set: the fields of the `Drop` struct that `Apply`
reads. `check e` stands for `formatters.CheckCondition(d.code, e)`, the
compiled gojq condition run on one event (modelled from the spec: it yields
a boolean or a distinguishable evaluation error; `CheckCondition` lives in
the repository's `formatters` package, outside `src/`). A compiled regular
expression is modelled by its `MatchString` predicate. -/
structure Drop where
  Condition : String
  check : EventMsg → Except String Bool
  tagNames : List (String → Bool)
  valueNames : List (String → Bool)
  tags : List (String → Bool)
  values : List (String → Bool)

/-- One inner regex loop: `true` when some compiled regex in the list
matches `s`. The source breaks after the first match, so one run of the
loop appends the index at most once, exactly when some pattern matches. -/
def matchAny (res : List (String → Bool)) (s : String) : Bool :=
  res.any (fun re => re s)

/-- The `vs, ok := v.(string)` type assertion inside the `d.values` loop:
non-string values never match value patterns and never error. -/
def valueStrMatch (res : List (String → Bool)) : EValue → Bool
  | EValue.str s => matchAny res s
  | _ => false

/-- Appends produced by one `(k, v)` pair of `e.Values`: the `d.valueNames`
loop may append `i` once, then the `d.values` loop may append `i` once.
Each `break` in the source exits only its own innermost regex loop, so both
loops run for every pair. -/
def valuePairDrops (d : Drop) (i : Nat) (kv : String × EValue) : List Nat :=
  (if matchAny d.valueNames kv.1 then [i] else []) ++
    (if valueStrMatch d.values kv.2 then [i] else [])

/-- Appends produced by one `(k, v)` pair of `e.Tags`: the `d.tagNames`
loop, then the `d.tags` loop. -/
def tagPairDrops (d : Drop) (i : Nat) (kv : String × String) : List Nat :=
  (if matchAny d.tagNames kv.1 then [i] else []) ++
    (if matchAny d.tags kv.2 then [i] else [])

/-- All appends produced by the regex criteria for event `e` at index `i`:
the `range e.Values` loop, then the `range e.Tags` loop. -/
def regexDrops (d : Drop) (i : Nat) (e : EventMsg) : List Nat :=
  (e.Values.map (valuePairDrops d i)).flatten ++ (e.Tags.map (tagPairDrops d i)).flatten

/-- Appends produced for batch element `i`. A nil element contributes
nothing (`continue`). With a non-empty condition: an evaluation error hits
`continue`, which moves to the next event and therefore also skips the regex
loops for this event; a true condition appends `i` once and skips them; a
false condition falls through to the regex loops. -/
def eventDropList (d : Drop) (i : Nat) : Option EventMsg → List Nat
  | none => []
  | some e =>
    if d.Condition = "" then regexDrops d i e
    else
      match d.check e with
      | Except.error _ => []
      | Except.ok true => [i]
      | Except.ok false => regexDrops d i e

/-- The `for i, e := range es` scan accumulating `toDrop`, with `i` the
running index. -/
def toDropGo (d : Drop) : Nat → List (Option EventMsg) → List Nat
  | _, [] => []
  | i, oe :: rest => eventDropList d i oe ++ toDropGo d (i + 1) rest

/-- The full `toDrop` list collected by `Apply` before compaction. -/
def toDropList (d : Drop) (es : List (Option EventMsg)) : List Nat :=
  toDropGo d 0 es

/-- The removal loop of `shift`, run on the already-reversed index list:
`copy(es[n:], es[n+1:]); es = es[:len(es)-1]` removes the element at
position `n` when `n < len(es)`; otherwise the loop hits `break`,
abandoning all remaining indices. -/
def shiftGo {α : Type} : List α → List Nat → List α
  | es, [] => es
  | es, n :: ds => if n < es.length then shiftGo (es.eraseIdx n) ds else es

/-- `shift`: reverse `dropIndexes` (instead of sorting), then run the
removal loop. -/
def shift {α : Type} (es : List α) (dropIndexes : List Nat) : List α :=
  shiftGo es dropIndexes.reverse

/-- `Drop.Apply`: scan the batch; if no index was marked return the input
itself, otherwise compact with `shift`. -/
def Drop.Apply (d : Drop) (es : List (Option EventMsg)) : List (Option EventMsg) :=
  if (toDropList d es).length = 0 then es else shift es (toDropList d es)

/-- Modelled from the spec: the external services `Init` calls —
`gojq.Parse`, `gojq.Compile`, `regexp.Compile`, and
`formatters.CheckCondition` (the last is repository code outside `src/`).
Each may fail with an error; `Q` and `C` are the parsed-query and
compiled-program types. -/
structure Externs (Q C : Type) where
  gojqParse : String → Except String Q
  gojqCompile : Q → Except String C
  regexpCompile : String → Except String (String → Bool)
  checkCondition : C → EventMsg → Except String Bool

/-- The configuration fields decoded into the `Drop` struct by
`formatters.DecodeConfig`. -/
structure DropConfig where
  Condition : String
  TagNames : List String
  ValueNames : List String
  Tags : List String
  Values : List String
  Debug : Bool

/-- One `for _, reg := range ...` compilation loop of `Init`: compile each
regex source string in order, returning the first error. -/
def compileRegexList (rc : String → Except String (String → Bool)) :
    List String → Except String (List (String → Bool))
  | [] => Except.ok []
  | s :: rest =>
    match rc s with
    | Except.error m => Except.error m
    | Except.ok re =>
      match compileRegexList rc rest with
      | Except.error m => Except.error m
      | Except.ok res => Except.ok (re :: res)

/-- `Drop.Init` after config decoding: trim the condition, then parse and
compile it unconditionally (the source has no emptiness guard), then compile
the four pattern lists in source order (`tag-names`, `tags`, `value-names`,
`values`), returning the first error; on error no matcher set is produced. -/
def Drop.Init {Q C : Type} (ext : Externs Q C) (cfg : DropConfig) : Except String Drop :=
  match ext.gojqParse (trimSpace cfg.Condition) with
  | Except.error m => Except.error m
  | Except.ok q =>
    match ext.gojqCompile q with
    | Except.error m => Except.error m
    | Except.ok code =>
      match compileRegexList ext.regexpCompile cfg.TagNames with
      | Except.error m => Except.error m
      | Except.ok tagNames =>
        match compileRegexList ext.regexpCompile cfg.Tags with
        | Except.error m => Except.error m
        | Except.ok tags =>
          match compileRegexList ext.regexpCompile cfg.ValueNames with
          | Except.error m => Except.error m
          | Except.ok valueNames =>
            match compileRegexList ext.regexpCompile cfg.Values with
            | Except.error m => Except.error m
            | Except.ok values =>
              Except.ok
                { Condition := trimSpace cfg.Condition,
                  check := ext.checkCondition code,
                  tagNames := tagNames,
                  valueNames := valueNames,
                  tags := tags,
                  values := values }

/-- Whether the condition criterion marks event `e`: the condition is
non-empty and its evaluation returns true; evaluation errors count as not
holding. -/
def condHolds (d : Drop) (e : EventMsg) : Bool :=
  if d.Condition = "" then false
  else
    match d.check e with
    | Except.error _ => false
    | Except.ok b => b

/-- Whether any of the five drop criteria matches event `e` (condition,
value-key, value-value, tag-key, tag-value). -/
def matchesCriterion (d : Drop) (e : EventMsg) : Bool :=
  condHolds d e
    || e.Values.any (fun kv => matchAny d.valueNames kv.1)
    || e.Values.any (fun kv => valueStrMatch d.values kv.2)
    || e.Tags.any (fun kv => matchAny d.tagNames kv.1)
    || e.Tags.any (fun kv => matchAny d.tags kv.2)

/-- Matcher set with no condition and the single tag-value pattern `^v$`,
whose compiled `MatchString` predicate is equality with `"v"`. -/
def dropTagV : Drop :=
  { Condition := "", check := fun _ => Except.ok false,
    tagNames := [], valueNames := [], tags := [fun s => s == "v"], values := [] }

/-- Event with one non-matching tag. -/
def ev0 : EventMsg := { Tags := [("site", "x")], Values := [] }

/-- Event with two tags whose values both match `^v$`. -/
def ev1 : EventMsg := { Tags := [("a", "v"), ("b", "v")], Values := [] }

/-- Event with no tags and no values. -/
def ev2 : EventMsg := { Tags := [], Values := [] }

/-- Matcher set with no condition and the single value-name pattern
`^k[12]$`, whose compiled `MatchString` predicate tests for `"k1"` or
`"k2"`. -/
def dropKeyK : Drop :=
  { Condition := "", check := fun _ => Except.ok false,
    tagNames := [], valueNames := [fun s => s == "k1" || s == "k2"], tags := [], values := [] }

/-- Event whose single value key does not start with `k`. -/
def fv0 : EventMsg := { Tags := [], Values := [("a", EValue.str "z")] }

/-- Event with two value keys that both start with `k`. -/
def fv1multi : EventMsg :=
  { Tags := [], Values := [("k1", EValue.str "z"), ("k2", EValue.str "z")] }

/-- Event with a single value key that starts with `k`. -/
def fv1single : EventMsg := { Tags := [], Values := [("k1", EValue.str "z")] }

/-- Event with no tags and no values. -/
def fv2 : EventMsg := { Tags := [], Values := [] }

/-- Matcher set with a non-empty condition whose compiled program fails at
runtime on every event (for example a jq query applying `tonumber` to a
non-numeric tag), plus one tag-value pattern matching the literal `v`. -/
def dropCondErr : Drop :=
  { Condition := ".tags.a | tonumber > 0", check := fun _ => Except.error "cannot be parsed",
    tagNames := [], valueNames := [], tags := [fun s => s == "v"], values := [] }

/-- Event whose tag value `v` matches the tag-value pattern of
`dropCondErr`. -/
def gv1 : EventMsg := { Tags := [("a", "v")], Values := [] }

/-- Matcher set with a non-empty condition erroring on every event and no
regex patterns at all. -/
def dropCondErr2 : Drop :=
  { Condition := ".values.x > 1", check := fun _ => Except.error "boom",
    tagNames := [], valueNames := [], tags := [], values := [] }

/-- Event used with `dropCondErr2`. -/
def hv1 : EventMsg := { Tags := [("t", "u")], Values := [] }

/-- Matcher set with no condition and one tag-name pattern `^debug$` that
matches nothing below. -/
def dropNoMatch : Drop :=
  { Condition := "", check := fun _ => Except.ok false,
    tagNames := [fun s => s == "debug"], valueNames := [], tags := [], values := [] }

/-- Event whose tag key and value key match none of `dropNoMatch`'s
patterns. -/
def kv1 : EventMsg := { Tags := [("site", "sf")], Values := [("speed", EValue.num 10)] }

/-- Matcher set with a value-value pattern `^42$` that the numeric value 42
would match textually. -/
def dropValNum : Drop :=
  { Condition := "", check := fun _ => Except.ok false,
    tagNames := [], valueNames := [], tags := [], values := [fun s => s == "42"] }

/-- Matcher set with no condition and a tag-value pattern matching the
literal `w`, used to show holes and unmatched events are marked alike. -/
def dropTagW : Drop :=
  { Condition := "", check := fun _ => Except.ok false,
    tagNames := [], valueNames := [], tags := [fun s => s == "w"], values := [] }

/-- Event not matching `dropTagW`. -/
def mv0 : EventMsg := { Tags := [("a", "z")], Values := [] }

/-- Event matching `dropTagW` (its tag value is `w`). -/
def mv1 : EventMsg := { Tags := [("a", "w")], Values := [] }

/-- External services where query parsing and compilation always succeed
and the regex `(` fails to compile (as it does under Go's regexp syntax),
every other pattern compiling. -/
def extBadRegex : Externs Unit Unit :=
  { gojqParse := fun _ => Except.ok (),
    gojqCompile := fun _ => Except.ok (),
    regexpCompile := fun s =>
      if s = "(" then Except.error "missing closing )" else Except.ok fun _ => false,
    checkCondition := fun _ _ => Except.ok false }

/-- Configuration whose `tags` list holds the invalid regex `(`. -/
def cfgBadRegex : DropConfig :=
  { Condition := ".tags.a", TagNames := [], ValueNames := [], Tags := ["("],
    Values := [], Debug := false }

/-- Modelled from the spec: external services for the empty-condition
configuration. The condition grammar is an external jq-style structural
query language in which the empty string is not a query, so parsing `""`
fails (gojq rejects the empty query with a parse error); regex compilation
never fails here. -/
def extEmptyCond : Externs Unit Unit :=
  { gojqParse := fun s =>
      if s = "" then Except.error "unexpected token <EOF>" else Except.ok (),
    gojqCompile := fun _ => Except.ok (),
    regexpCompile := fun _ => Except.ok fun _ => false,
    checkCondition := fun _ _ => Except.ok false }

/-- The default configuration: absent condition (empty string) and no
pattern lists. -/
def cfgEmptyCond : DropConfig :=
  { Condition := "", TagNames := [], ValueNames := [], Tags := [], Values := [],
    Debug := false }

/-- A flatten of per-element lists is empty when every element produces the
empty list. -/
lemma flatten_map_eq_nil {β γ : Type} (f : β → List γ) (l : List β)
    (h : ∀ b, b ∈ l → f b = []) : (l.map f).flatten = [] := by
  induction l with
  | nil => rfl
  | cons hd tl ih =>
    simp only [List.map_cons, List.flatten_cons, h hd (List.mem_cons_self hd tl)]
    exact ih fun b hb => h b (List.mem_cons_of_mem hd hb)

/-- If no key of `e.Values` matches a value-name pattern, no string value of
`e.Values` matches a value pattern, and likewise for `e.Tags`, then the
regex loops append nothing for this event. -/
lemma regexDrops_eq_nil (d : Drop) (i : Nat) (e : EventMsg)
    (h1 : e.Values.any (fun kv => matchAny d.valueNames kv.1) = false)
    (h2 : e.Values.any (fun kv => valueStrMatch d.values kv.2) = false)
    (h3 : e.Tags.any (fun kv => matchAny d.tagNames kv.1) = false)
    (h4 : e.Tags.any (fun kv => matchAny d.tags kv.2) = false) :
    regexDrops d i e = [] := by
  rw [List.any_eq_false] at h1 h2 h3 h4
  unfold regexDrops
  have hv : (e.Values.map (valuePairDrops d i)).flatten = [] :=
    flatten_map_eq_nil _ _ fun kv hkv => by
      unfold valuePairDrops
      rw [if_neg (h1 kv hkv), if_neg (h2 kv hkv)]
      rfl
  have ht : (e.Tags.map (tagPairDrops d i)).flatten = [] :=
    flatten_map_eq_nil _ _ fun kv hkv => by
      unfold tagPairDrops
      rw [if_neg (h3 kv hkv), if_neg (h4 kv hkv)]
      rfl
  rw [hv, ht]
  rfl

/-- An event matching no criterion is never marked. -/
lemma eventDropList_eq_nil_of_not_matches (d : Drop) (i : Nat) (e : EventMsg)
    (h : matchesCriterion d e = false) : eventDropList d i (some e) = [] := by
  unfold matchesCriterion at h
  simp only [Bool.or_eq_false_iff] at h
  obtain ⟨⟨⟨⟨hc, h1⟩, h2⟩, h3⟩, h4⟩ := h
  simp only [eventDropList]
  by_cases hcond : d.Condition = ""
  · rw [if_pos hcond]
    exact regexDrops_eq_nil d i e h1 h2 h3 h4
  · rw [if_neg hcond]
    unfold condHolds at hc
    rw [if_neg hcond] at hc
    cases hchk : d.check e with
    | error m => rfl
    | ok b =>
      rw [hchk] at hc
      cases b with
      | false => exact regexDrops_eq_nil d i e h1 h2 h3 h4
      | true => exact absurd hc (by simp)

/-- The scan over an appended batch splits into the two scans, the second
starting at the shifted index. -/
lemma toDropGo_append (d : Drop) (i : Nat) (l₁ l₂ : List (Option EventMsg)) :
    toDropGo d i (l₁ ++ l₂) = toDropGo d i l₁ ++ toDropGo d (i + l₁.length) l₂ := by
  induction l₁ generalizing i with
  | nil => simp [toDropGo]
  | cons hd tl ih =>
    simp only [List.cons_append, toDropGo, List.length_cons, List.append_eq]
    rw [ih (i + 1), List.append_assoc]
    have harith : i + 1 + tl.length = i + (tl.length + 1) := by omega
    rw [harith]

/-- A scan in which every element is marked by nothing collects nothing. -/
lemma toDropGo_eq_nil (d : Drop) (es : List (Option EventMsg)) (i : Nat)
    (h : ∀ oe, oe ∈ es → ∀ j, eventDropList d j oe = []) : toDropGo d i es = [] := by
  induction es generalizing i with
  | nil => rfl
  | cons hd tl ih =>
    simp only [toDropGo, h hd (List.mem_cons_self hd tl) i, List.nil_append]
    exact ih (i + 1) fun oe hoe j => h oe (List.mem_cons_of_mem hd hoe) j

/-- The removal loop only ever deletes elements: its result is a subsequence
of its input. -/
lemma shiftGo_sublist {α : Type} (ds : List Nat) (es : List α) :
    List.Sublist (shiftGo es ds) es := by
  induction ds generalizing es with
  | nil => exact List.Sublist.refl es
  | cons n rest ih =>
    unfold shiftGo
    by_cases hn : n < es.length
    · rw [if_pos hn]
      exact List.Sublist.trans (ih (es.eraseIdx n)) (List.eraseIdx_sublist es n)
    · rw [if_neg hn]

/-- `shift` returns a subsequence of its input. -/
lemma shift_sublist {α : Type} (es : List α) (ds : List Nat) :
    List.Sublist (shift es ds) es :=
  shiftGo_sublist ds.reverse es

/-- `Apply` returns a subsequence of its input. -/
lemma apply_sublist (d : Drop) (es : List (Option EventMsg)) :
    List.Sublist (Drop.Apply d es) es := by
  unfold Drop.Apply
  by_cases h : (toDropList d es).length = 0
  · rw [if_pos h]
  · rw [if_neg h]
    exact shift_sublist es (toDropList d es)

/-- If some source string in the list fails to compile, the compilation loop
fails. -/
lemma compileRegexList_error (rc : String → Except String (String → Bool))
    (srcs : List String) (s : String) (hs : s ∈ srcs) (m : String)
    (hm : rc s = Except.error m) :
    ∃ m2, compileRegexList rc srcs = Except.error m2 := by
  induction srcs with
  | nil => cases hs
  | cons hd tl ih =>
    rcases List.mem_cons.mp hs with heq | htl
    · subst heq
      refine ⟨m, ?_⟩
      unfold compileRegexList
      rw [hm]
    · cases hhd : rc hd with
      | error m2 =>
        refine ⟨m2, ?_⟩
        unfold compileRegexList
        rw [hhd]
      | ok re =>
        obtain ⟨m2, hrec⟩ := ih htl
        refine ⟨m2, ?_⟩
        unfold compileRegexList
        rw [hhd, hrec]

/-- Claim C1 (evaluated at the failing input): with no condition and the
single tag-value pattern matching the literal `v`, the batch
`[ev0, ev1, ev2]` in which only `ev1` matches (twice, through its two tags)
yields the drop list `[1, 1]` — each `break` exits only the innermost regex
loop, so the matching event's index is appended once per matching pair —
and `shift` then removes two elements, returning `[ev0]`. The claim (and
the source's own doc comment, which says the message is dropped when any
regex matches) requires `[ev0, ev2]`: the unmatched `ev2` is lost. -/
theorem claim1_unmatched_event_dropped :
    toDropList dropTagV [some ev0, some ev1, some ev2] = [1, 1] ∧
    Drop.Apply dropTagV [some ev0, some ev1, some ev2] = [some ev0] ∧
    Drop.Apply dropTagV [some ev0, some ev1, some ev2] ≠ [some ev0, some ev2] := by
  decide

/-- Claim C3 (evaluated at the failing input): an event two of whose value
keys match a value-name pattern has its index recorded twice in the to-drop
list, and the output of `Apply` differs from the single-match variant of
the same batch (`[fv0]` against `[fv0, fv2]`), so evaluating all patterns
is observably different from short-circuiting at the first match. -/
theorem claim3_duplicate_marks :
    toDropList dropKeyK [some fv0, some fv1multi, some fv2] = [1, 1] ∧
    Drop.Apply dropKeyK [some fv0, some fv1multi, some fv2] = [some fv0] ∧
    toDropList dropKeyK [some fv0, some fv1single, some fv2] = [1] ∧
    Drop.Apply dropKeyK [some fv0, some fv1single, some fv2] = [some fv0, some fv2] := by
  decide

/-- Claim C2 counterexample: the condition of `dropCondErr` errors on
`gv1`, whose tag value `v` matches the tag-value pattern; if the four regex
families were still evaluated for this event, it would be dropped, but
`Apply` returns it unchanged — the `continue` on a condition error skips
the regex criteria for the event. -/
theorem claim2_counterexample :
    dropCondErr.Condition ≠ "" ∧
    dropCondErr.check gv1 = Except.error "cannot be parsed" ∧
    matchAny dropCondErr.tags "v" = true ∧
    Drop.Apply dropCondErr [some gv1] = [some gv1] :=
  ⟨by decide, rfl, by decide, by decide⟩

/-- Claim C2 (amended): when condition evaluation fails on an event, that
event is never marked to drop — neither via the condition path nor via the
regex families, which are skipped for it — the error does not propagate
past the event boundary, and the batch's drop list is exactly what it would
be had that slot been absent, so every other event is marked as usual. -/
theorem claim2_error_skips_event (d : Drop) (e : EventMsg) (m : String)
    (hc : d.Condition ≠ "") (he : d.check e = Except.error m) :
    (∀ i, eventDropList d i (some e) = []) ∧
    ∀ pre post : List (Option EventMsg),
      toDropList d (pre ++ some e :: post) = toDropList d (pre ++ none :: post) := by
  have hnil : ∀ i, eventDropList d i (some e) = [] := by
    intro i
    simp only [eventDropList]
    rw [if_neg hc, he]
  refine ⟨hnil, ?_⟩
  intro pre post
  unfold toDropList
  rw [toDropGo_append, toDropGo_append]
  simp only [toDropGo, hnil]
  rfl

/-- Witness for `claim2_error_skips_event` at a concrete matcher set, event
and batch. -/
theorem claim2_witness :
    eventDropList dropCondErr2 0 (some hv1) = [] ∧
    toDropList dropCondErr2 [some hv1, none] = toDropList dropCondErr2 [none, none] :=
  ⟨(claim2_error_skips_event dropCondErr2 hv1 "boom" (by decide) rfl).1 0,
   (claim2_error_skips_event dropCondErr2 hv1 "boom" (by decide) rfl).2 [] [none]⟩

/-- Claim C4 (evaluated at the failing input): with the default
configuration — empty condition, no pattern lists, so every regex-source
string (vacuously) compiles — `Init` still calls the query parser on the
empty string and propagates its parse error, because the source trims and
parses the condition unconditionally; construction fails although the
claim says it succeeds whenever the regexes compile. -/
theorem claim4_empty_condition_parsed :
    compileRegexList extEmptyCond.regexpCompile cfgEmptyCond.TagNames = Except.ok [] ∧
    compileRegexList extEmptyCond.regexpCompile cfgEmptyCond.ValueNames = Except.ok [] ∧
    compileRegexList extEmptyCond.regexpCompile cfgEmptyCond.Tags = Except.ok [] ∧
    compileRegexList extEmptyCond.regexpCompile cfgEmptyCond.Values = Except.ok [] ∧
    Drop.Init extEmptyCond cfgEmptyCond = Except.error "unexpected token <EOF>" :=
  ⟨rfl, rfl, rfl, rfl, rfl⟩

/-- Claim C5 counterexample: `shift [10, 20, 30] [1, 5]` reverses the
index list to `[5, 1]` and the out-of-range `5` triggers `break`, so the
in-bounds index `1` is never removed: the result is `[10, 20, 30]`, not
the `[10, 30]` the claim requires. -/
theorem claim5_counterexample :
    shift [10, 20, 30] [1, 5] = [10, 20, 30] ∧
    shift [10, 20, 30] [1, 5] ≠ [10, 30] := by
  decide

/-- Claim C5 (amended): a marked index greater than or equal to the
current (shrinking) length causes no out-of-bounds failure and is not
itself removed, but it terminates the removal pass, leaving all remaining
indices of the pass unprocessed; the pass always returns a subsequence of
its input. -/
theorem claim5_oob_terminates {α : Type} (es : List α) (n : Nat) (ds rest : List Nat)
    (h : es.length ≤ n) :
    shiftGo es (n :: ds) = es ∧ List.Sublist (shift es rest) es := by
  constructor
  · unfold shiftGo
    rw [if_neg (by omega)]
  · exact shift_sublist es rest

/-- Witness for `claim5_oob_terminates` at concrete inputs. -/
theorem claim5_witness :
    shiftGo [10, 20, 30] (5 :: [0, 1]) = [10, 20, 30] ∧
    List.Sublist (shift [10, 20, 30] [2]) [10, 20, 30] :=
  claim5_oob_terminates [10, 20, 30] 5 [0, 1] [2] (by decide)

/-- Claim C6: if no event of the batch matches any of the five criteria,
the scan collects no index and `Apply` returns the input batch itself
unchanged. -/
theorem claim6_noop_identity (d : Drop) (es : List (Option EventMsg))
    (h : ∀ e : EventMsg, some e ∈ es → matchesCriterion d e = false) :
    Drop.Apply d es = es := by
  have hnil : toDropList d es = [] := by
    apply toDropGo_eq_nil
    intro oe hoe j
    cases oe with
    | none => rfl
    | some e => exact eventDropList_eq_nil_of_not_matches d j e (h e hoe)
  unfold Drop.Apply
  rw [hnil]
  rfl

/-- Witness for `claim6_noop_identity` at a concrete matcher set and
batch. -/
theorem claim6_witness :
    Drop.Apply dropNoMatch [some kv1, none] = [some kv1, none] :=
  claim6_noop_identity dropNoMatch [some kv1, none] (by
    intro e he
    rcases List.mem_cons.mp he with h1 | h1
    · injection h1 with h1
      subst h1
      decide
    · rcases List.mem_cons.mp h1 with h2 | h2
      · exact Option.noConfusion h2
      · exact absurd h2 (List.not_mem_nil _))

/-- Claim C7: `Init` fails (returning an error and no matcher set) when the
condition fails to parse, when the parsed condition fails to compile, or
when any single regex-source string in any of the four pattern lists fails
to compile. -/
theorem claim7_init_fail_fast {Q C : Type} (ext : Externs Q C) (cfg : DropConfig)
    (h : (∃ m, ext.gojqParse (trimSpace cfg.Condition) = Except.error m) ∨
         (∃ q m, ext.gojqParse (trimSpace cfg.Condition) = Except.ok q ∧
           ext.gojqCompile q = Except.error m) ∨
         (∃ s, (s ∈ cfg.TagNames ∨ s ∈ cfg.Tags ∨ s ∈ cfg.ValueNames ∨ s ∈ cfg.Values) ∧
           ∃ m, ext.regexpCompile s = Except.error m)) :
    ∃ m2, Drop.Init ext cfg = Except.error m2 := by
  unfold Drop.Init
  rcases h with ⟨m, hm⟩ | ⟨q, m, hq, hm⟩ | ⟨s, hmem, m, hm⟩
  · simp only [hm]
    exact ⟨m, rfl⟩
  · simp only [hq, hm]
    exact ⟨m, rfl⟩
  · cases hp : ext.gojqParse (trimSpace cfg.Condition) with
    | error m2 =>
      simp only [hp]
      exact ⟨m2, rfl⟩
    | ok q =>
      simp only [hp]
      cases hcq : ext.gojqCompile q with
      | error m2 =>
        simp only [hcq]
        exact ⟨m2, rfl⟩
      | ok code =>
        simp only [hcq]
        rcases hmem with hs | hs | hs | hs
        · obtain ⟨m2, hcl⟩ := compileRegexList_error ext.regexpCompile cfg.TagNames s hs m hm
          simp only [hcl]
          exact ⟨m2, rfl⟩
        · cases h1 : compileRegexList ext.regexpCompile cfg.TagNames with
          | error m3 =>
            simp only [h1]
            exact ⟨m3, rfl⟩
          | ok l1 =>
            obtain ⟨m2, hcl⟩ := compileRegexList_error ext.regexpCompile cfg.Tags s hs m hm
            simp only [h1, hcl]
            exact ⟨m2, rfl⟩
        · cases h1 : compileRegexList ext.regexpCompile cfg.TagNames with
          | error m3 =>
            simp only [h1]
            exact ⟨m3, rfl⟩
          | ok l1 =>
            cases h2 : compileRegexList ext.regexpCompile cfg.Tags with
            | error m3 =>
              simp only [h1, h2]
              exact ⟨m3, rfl⟩
            | ok l2 =>
              obtain ⟨m2, hcl⟩ :=
                compileRegexList_error ext.regexpCompile cfg.ValueNames s hs m hm
              simp only [h1, h2, hcl]
              exact ⟨m2, rfl⟩
        · cases h1 : compileRegexList ext.regexpCompile cfg.TagNames with
          | error m3 =>
            simp only [h1]
            exact ⟨m3, rfl⟩
          | ok l1 =>
            cases h2 : compileRegexList ext.regexpCompile cfg.Tags with
            | error m3 =>
              simp only [h1, h2]
              exact ⟨m3, rfl⟩
            | ok l2 =>
              cases h3 : compileRegexList ext.regexpCompile cfg.ValueNames with
              | error m3 =>
                simp only [h1, h2, h3]
                exact ⟨m3, rfl⟩
              | ok l3 =>
                obtain ⟨m2, hcl⟩ :=
                  compileRegexList_error ext.regexpCompile cfg.Values s hs m hm
                simp only [h1, h2, h3, hcl]
                exact ⟨m2, rfl⟩

/-- Witness for `claim7_init_fail_fast`: a configuration whose `tags` list
holds the invalid regex `(` fails construction. -/
theorem claim7_witness : Drop.Init extBadRegex cfgBadRegex = Except.error "missing closing )" := by
  have h := claim7_init_fail_fast extBadRegex cfgBadRegex
    (Or.inr (Or.inr ⟨"(", Or.inr (Or.inl (List.mem_cons_self "(" [])),
      "missing closing )", rfl⟩))
  exact rfl

/-- Claim C8: a value whose runtime type is not string never matches any
value-value pattern, so such a value's pair contributes to the drop list
only through the value-key criterion, never through the value-value
criterion, and causes no error (the scan is total). -/
theorem claim8_nonstring_immunity (d : Drop) (v : EValue) (hv : ∀ s, v ≠ EValue.str s)
    (i : Nat) (k : String) :
    valueStrMatch d.values v = false ∧
    valuePairDrops d i (k, v) = (if matchAny d.valueNames k then [i] else []) := by
  have hm : valueStrMatch d.values v = false := by
    cases v with
    | str s => exact absurd rfl (hv s)
    | num n => rfl
    | boolVal b => rfl
  refine ⟨hm, ?_⟩
  show (if matchAny d.valueNames k then [i] else []) ++
      (if valueStrMatch d.values v then [i] else []) = _
  rw [hm]
  simp

/-- Witness for `claim8_nonstring_immunity`: the numeric value 42 would
textually match the value pattern `^42$` but is never matched by it. -/
theorem claim8_witness :
    valueStrMatch dropValNum.values (EValue.num 42) = false ∧
    valuePairDrops dropValNum 0 ("speed", EValue.num 42) =
      (if matchAny dropValNum.valueNames "speed" then [0] else []) :=
  claim8_nonstring_immunity dropValNum (EValue.num 42) (fun _ h => EValue.noConfusion h)
    0 "speed"

/-- Claim C9: an absent (nil) batch element is never marked to drop, never
causes an error (the scan is total on it), and the batch's drop list with a
hole at some position is exactly the drop list with any unmatched event
there, so a hole flows through the compaction step like any unmatched
element. -/
theorem claim9_nil_event_noop (d : Drop) (pre post : List (Option EventMsg)) (e : EventMsg)
    (h : matchesCriterion d e = false) :
    (∀ i, eventDropList d i none = []) ∧
    toDropList d (pre ++ none :: post) = toDropList d (pre ++ some e :: post) := by
  refine ⟨fun _ => rfl, ?_⟩
  unfold toDropList
  rw [toDropGo_append, toDropGo_append]
  simp only [toDropGo]
  rw [eventDropList_eq_nil_of_not_matches d (0 + pre.length) e h]
  rfl

/-- Witness for `claim9_nil_event_noop`: a hole between two events is
marked exactly as an unmatched event would be, even while another event of
the batch is dropped. -/
theorem claim9_witness :
    eventDropList dropTagW 0 none = [] ∧
    toDropList dropTagW [some mv1, none, some mv0] =
      toDropList dropTagW [some mv1, some mv0, some mv0] :=
  ⟨(claim9_nil_event_noop dropTagW [some mv1] [some mv0] mv0 (by decide)).1 0,
   (claim9_nil_event_noop dropTagW [some mv1] [some mv0] mv0 (by decide)).2⟩

/-- Claim C10: for every drop-index list, `shift` returns a subsequence of
its input, and for every matcher set and batch, `Apply` returns a
subsequence of the batch: surviving elements keep their relative order, no
element occurs more often in the output than in the input, and the output
is never longer than the input. -/
theorem claim10_output_subsequence {α : Type} (bs : List α) (ds : List Nat)
    (d : Drop) (es : List (Option EventMsg)) :
    List.Sublist (shift bs ds) bs ∧
    List.Sublist (Drop.Apply d es) es ∧
    (Drop.Apply d es).length ≤ es.length ∧
    ∀ x : Option EventMsg, List.count x (Drop.Apply d es) ≤ List.count x es := by
  refine ⟨shift_sublist bs ds, apply_sublist d es, (apply_sublist d es).length_le, ?_⟩
  intro x
  exact (apply_sublist d es).count_le x
